import Mathlib

/-
Verification of the miniorm library: a shallow embedding of the DTO (Record),
Dao (Access layer), Domain (Entity) and validation components, with theorems
about filter/insert/update SQL generation, row mapping, lookup semantics and
pre-operation validation.

Conventions of the embedding:
* Python scalar values are modelled by the inductive type PyVal.  Machine
  floats and nested objects are outside the modelled fragment; the claims
  below only involve null, booleans, integers, text, unique identifiers and
  date/time values (the latter carried by their textual rendering, which is
  all the code ever uses of them).
* Python object attribute dictionaries are modelled as insertion-ordered
  association lists with string keys, mirroring dict iteration order.
* The external storage driver (Pgsql) is modelled by the Db structure: a
  connect step that may fail, a schema-columns map, and an execute map from
  statement text to either rows or a driver exception.  This mirrors the
  interface listed in the spec (section 6) as the external collaborator.
* Exceptions are values of the inductive type Exc; raising is modelled with
  Except.  The isDaoError predicate mirrors the Python class hierarchy
  (which exception classes derive from DaoError).
-/

namespace Miniorm

/-- The single-quote character, built by code point to keep source text plain. -/
def sq : Char := Char.ofNat 39

/-- A one-character string holding a single quote. -/
def sqs : String := String.mk [sq]

/-- Python scalar values as used by miniorm: None, bool, int, str, uuid.UUID
(carried by its canonical lowercase textual form) and date/time values
(carried by their str() rendering). -/
inductive PyVal where
  | none : PyVal
  | bool : Bool → PyVal
  | int : Int → PyVal
  | str : String → PyVal
  | uuid : String → PyVal
  | dt : String → PyVal
deriving DecidableEq, Repr

/-- Python str() on the modelled scalar values. -/
def pyStr : PyVal → String
  | PyVal.none => "None"
  | PyVal.bool b => if b then "True" else "False"
  | PyVal.int n => toString n
  | PyVal.str s => s
  | PyVal.uuid s => s
  | PyVal.dt s => s

/-- Hexadecimal digit test (0-9, a-f, A-F). -/
def isHexChar (c : Char) : Bool :=
  c.isDigit || (Char.ofNat 97 ≤ c && c ≤ Char.ofNat 102) || (Char.ofNat 65 ≤ c && c ≤ Char.ofNat 70)

/-- The dash character. -/
def dashChar : Char := Char.ofNat 45

/-- Splitting a character list on dashes, preserving empty groups. -/
def splitDash : List Char → List (List Char)
  | [] => [[]]
  | c :: rest =>
      if c = dashChar then [] :: splitDash rest
      else
        match splitDash rest with
        | g :: gs => (c :: g) :: gs
        | [] => [[c]]

/-- Canonical dashed UUID shape: five dash-separated hex groups of sizes
8-4-4-4-12.  This is the form matched by ReflectionUtils.looks_like_uuid
and the form in which the code ever feeds strings to uuid.UUID. -/
def uuidShape (s : String) : Bool :=
  let parts := splitDash s.data
  (parts.map List.length = [8, 4, 4, 4, 12]) &&
    parts.all (fun p => p.all isHexChar)

/-- Lowercasing, character by character. -/
def lowerStr (s : String) : String := String.mk (s.data.map Char.toLower)

/-- Model of the standard library constructor uuid.UUID applied to a string:
on the canonical dashed form it succeeds and normalizes to lowercase (the
str() of the resulting UUID object); on other inputs it raises ValueError
(modelled as Option.none).  The stdlib also accepts braced, urn and undashed
forms, which the repository never produces. -/
def pyUuidParse (s : String) : Option String :=
  if uuidShape s then some (lowerStr s) else Option.none

/-- ReflectionUtils.looks_like_uuid: the regular expression for the dashed
hex form anchored at both ends. -/
def looks_like_uuid (s : String) : Bool := uuidShape s

/-- uuid_utils.is_valid_uuid: parse, then compare the canonical rendering
with the lowercased input. -/
def is_valid_uuid (s : String) : Bool :=
  match pyUuidParse s with
  | some u => u = lowerStr s
  | Option.none => false

/-- sql_utils.sql_escape: Python value.replace with a single-quote pattern,
i.e. every single-quote character is doubled. -/
def sql_escape (s : String) : String :=
  String.mk (s.data.flatMap (fun c => if c = sq then [sq, sq] else [c]))

/-- sql_utils.sql_value: renders a Python value as a SQL literal, following
the isinstance chain of the source (None, uuid.UUID, str, numeric/bool,
fallback str()). -/
def sql_value : PyVal → String
  | PyVal.none => "null"
  | PyVal.uuid s => sqs ++ s ++ sqs
  | PyVal.str s => sqs ++ sql_escape s ++ sqs
  | PyVal.int n => pyStr (PyVal.int n)
  | PyVal.bool b => pyStr (PyVal.bool b)
  | PyVal.dt s => sqs ++ s ++ sqs

/-! Attribute dictionaries: insertion-ordered association lists, mirroring
the semantics of a Python instance __dict__ (setattr updates an existing
key in place, otherwise appends; getattr returns the stored value). -/

/-- A Python attribute dictionary / row mapping. -/
abbrev Attrs := List (String × PyVal)

/-- Dictionary lookup (first matching key; keys are unique in Python). -/
def lookupV : Attrs → String → Option PyVal
  | [], _ => Option.none
  | (k2, v) :: rest, k => if k2 = k then some v else lookupV rest k

/-- setattr semantics: update the entry in place if the key exists,
otherwise append it. -/
def setattrL : Attrs → String → PyVal → Attrs
  | [], k, v => [(k, v)]
  | (k2, v2) :: rest, k, v =>
      if k2 = k then (k2, v) :: rest else (k2, v2) :: setattrL rest k v

/-- Key list of a dictionary, in order. -/
def keysOf (l : Attrs) : List String := l.map Prod.fst

/-! The Record (DTO) layer: dto_base.Dto over reflection_base.MutableObject. -/

/-- A DTO class as declared by client code: class name, bound table name,
declared column fields, and whether it is the abstract base class Dto
itself (rejected by the isinstance guards in the Dao layer). -/
structure DtoClass where
  name : String
  table : String
  fields : List String
  isBase : Bool
deriving DecidableEq, Repr

/-- A DTO instance: its class and its attribute dictionary. -/
structure Dto where
  cls : DtoClass
  attrs : Attrs
deriving DecidableEq, Repr

/-- Dto.__init__ id handling: keep a uuid.UUID as is, try to parse a string
into a UUID (keeping the original string on ValueError), pass every other
value (including absence, i.e. None) through; then MutableObject.__init__
assigns the keyword dictionary as the attribute dictionary.  When no id was
passed the assignment kwargs[id] = None appends the key at the end. -/
def idCoerce : PyVal → PyVal
  | PyVal.uuid s => PyVal.uuid s
  | PyVal.str s =>
      (match pyUuidParse s with
       | some u => PyVal.uuid u
       | Option.none => PyVal.str s)
  | v => v

/-- The attribute dictionary produced by Dto.__init__ on a keyword
dictionary (see idCoerce above for the id handling). -/
def dtoNew (kwargs : Attrs) : Attrs :=
  let idNew := idCoerce ((lookupV kwargs "id").getD PyVal.none)
  if (lookupV kwargs "id").isSome then setattrL kwargs "id" idNew
  else kwargs ++ [("id", idNew)]

/-- Modelled from the spec: a concrete Record (DTO) subclass declares its
column fields (spec section 3: the field set corresponds 1:1 to storage
columns) and its constructor passes each declared field, defaulted to None,
as a keyword argument to the base Dto initializer.  The repository ships
only the base class; this is the declaration surface of spec section 6. -/
def DtoClass.init (c : DtoClass) (kwargs : Attrs) : Dto :=
  ⟨c, dtoNew (c.fields.map (fun f => (f, (lookupV kwargs f).getD PyVal.none)))⟩

/-- The default ignore list of Dto.columns. -/
def defaultIgnore : List String := ["dao", "dto", "__dao__", "__dto__", "table"]

/-- Dto.columns value normalization: uuid.UUID values are rendered as their
string form. -/
def colVal : PyVal → PyVal
  | PyVal.uuid s => PyVal.str s
  | v => v

/-- Python v == 0 on the modelled values (also true for False). -/
def pyEqZero : PyVal → Bool
  | PyVal.int n => decide (n = 0)
  | PyVal.bool b => !b
  | _ => false

/-- The assigned_only condition of Dto.columns, written as in the source:
v is not None or v is False or v == 0. -/
def assignedB (v : PyVal) : Bool :=
  !(decide (v = PyVal.none)) || decide (v = PyVal.bool false) || pyEqZero v

/-- Dto.columns: drop ignored attributes (default meta list), optionally
keep only assigned (non-None) values, and stringify UUID values. -/
def dtoColumns (d : Dto) (ignore : Option (List String)) (assignedOnly : Bool) : Attrs :=
  let ign := ignore.getD defaultIgnore
  d.attrs.filterMap (fun kv =>
    if ign.contains kv.1 then Option.none
    else if assignedOnly then
      (if assignedB kv.2 then some (kv.1, colVal kv.2) else Option.none)
    else some (kv.1, colVal kv.2))

/-- Attribute access dto.id; Dto.__init__ guarantees the key exists. -/
def dtoId (d : Dto) : PyVal := (lookupV d.attrs "id").getD PyVal.none

/-! ReflectionUtils.sync_with_dict: per-key assignment with opportunistic
UUID coercion (ignore_private is False at every call site in the claims). -/

/-- The value actually assigned for one incoming key: if the target already
holds a uuid.UUID and the incoming value is a string, try to parse it; if
the attribute does not exist yet and the incoming value looks like a UUID,
try to parse it; otherwise assign the raw value. -/
def syncVal (target : Option PyVal) (v : PyVal) : PyVal :=
  match target with
  | some (PyVal.uuid _) =>
      match v with
      | PyVal.str s =>
          (match pyUuidParse s with
           | some u => PyVal.uuid u
           | Option.none => PyVal.str s)
      | w => w
  | some _ => v
  | Option.none =>
      match v with
      | PyVal.str s =>
          if looks_like_uuid s then
            (match pyUuidParse s with
             | some u => PyVal.uuid u
             | Option.none => PyVal.str s)
          else PyVal.str s
      | w => w

/-- sync_with_dict over a whole row, in row order. -/
def syncWithDict (attrs : Attrs) (row : Attrs) : Attrs :=
  row.foldl (fun acc kv => setattrL acc kv.1 (syncVal (lookupV acc kv.1) kv.2)) attrs

/-- Dto.sync from a row dictionary (Object.sync dispatching to
sync_with_dict). -/
def syncDto (d : Dto) (row : Attrs) : Dto := ⟨d.cls, syncWithDict d.attrs row⟩

/-! Exceptions (exceptions_base) and the external driver interface. -/

/-- The exception values that the modelled operations can raise.  Wrapping
constructors keep the wrapped exception as a value where the Python code
keeps the original exception object or its str() in the message. -/
inductive Exc where
  | pyError : String → Exc
  | pySyntaxError : String → Exc
  | connectionError : String → Exc
  | sqlSyntaxError : Exc → String → Exc
  | queryExecutionError : Exc → Option String → Exc
  | dtoMappingError : String → Exc
  | registerNotFoundError : Dto → Exc
  | dtoExpectedError : String → Exc
  | dtoMissingAssignedFieldsError : String → Exc
  | updateOperationFailed : Option Dto → Exc
  | updateOperationError : Option Dto → Exc → Exc
  | validationError : String → List String → Exc
deriving DecidableEq, Repr

/-- Which exception classes derive from DaoError in exceptions_base
(DtoExpectedError and the validation error are plain Exceptions; pyError
and pySyntaxError stand for arbitrary non-miniorm exceptions). -/
def isDaoError : Exc → Bool
  | Exc.connectionError _ => true
  | Exc.sqlSyntaxError _ _ => true
  | Exc.queryExecutionError _ _ => true
  | Exc.dtoMappingError _ => true
  | Exc.registerNotFoundError _ => true
  | Exc.dtoMissingAssignedFieldsError _ => true
  | Exc.updateOperationFailed _ => true
  | Exc.updateOperationError _ _ => true
  | _ => false

/-- A result row returned by the driver: a mapping of column name to value. -/
abbrev Row := Attrs

/-- A driver-level exception: either a SyntaxError (handled separately by
the except chains) or any other exception. -/
inductive PyExc where
  | syntaxError : String → PyExc
  | otherError : String → PyExc
deriving DecidableEq, Repr

/-- The external storage driver (Pgsql): constructing it may fail, it
reports the schema columns of a table, and it executes one statement
returning rows or raising.  disconnect is a no-op in the model. -/
structure Db where
  connect : Except String Unit
  columns : String → List String
  execute : String → Except PyExc (List Row)

/-! ReflectionUtils.new_instance and the blueprints the Dao layer feeds it. -/

/-- What is passed as blueprint to ReflectionUtils.new_instance: either the
dotted-path string produced by Object.model (resolving back to the class),
or a DTO instance (what Dao.list builds with self.model()). -/
inductive Blueprint where
  | ofClass : DtoClass → Blueprint
  | ofObj : Dto → Blueprint

/-- ReflectionUtils.new_instance: pydoc.locate(blueprint) then my_class().
locate immediately calls blueprint.split, so a non-string blueprint (a DTO
instance) raises AttributeError; a dotted path resolves to the class, whose
zero-argument construction yields a fresh instance. -/
def newInstance : Blueprint → Except String Dto
  | Blueprint.ofClass c => Except.ok (DtoClass.init c [])
  | Blueprint.ofObj d =>
      Except.error ("AttributeError: " ++ d.cls.name ++ " object has no attribute split")

/-! The Access layer: dao_base.Dao. -/

/-- A Dao instance is bound to a DTO class (its model). -/
structure Dao where
  model : DtoClass

/-- The row-mapping loop shared by Dao.list and Dao.find_all: for each row,
create a fresh instance from the blueprint and sync the row into it; a
failure raises DtoMappingError for that row. -/
def mapRowsWith (bp : Blueprint) : List Row → Except Exc (List Dto)
  | [] => Except.ok []
  | r :: rest =>
      match newInstance bp with
      | Except.error m =>
          Except.error (Exc.dtoMappingError ("Failed to map row to DTO: " ++ m))
      | Except.ok inst =>
          match mapRowsWith bp rest with
          | Except.error e => Except.error e
          | Except.ok ds => Except.ok (syncDto inst r :: ds)

/-- The SELECT statement built by Dao.list: all schema columns of the
model table. -/
def listQuery (model : DtoClass) (validCols : List String) : String :=
  "SELECT " ++ String.intercalate ", " validCols ++ " FROM " ++ model.table

/-- Dao.list: connect, select every schema column, map each row through a
fresh instance.  The blueprint passed to new_instance is self.model(), a
DTO instance, and the whole mapping loop sits inside the broad try/except,
so a DtoMappingError raised there is caught and re-raised as
QueryExecutionError. -/
def Dao.list (dao : Dao) (db : Db) : Except Exc (List Dto) :=
  match db.connect with
  | Except.error m => Except.error (Exc.connectionError m)
  | Except.ok _ =>
      let validCols := db.columns dao.model.table
      let query := listQuery dao.model validCols
      match db.execute query with
      | Except.error (PyExc.syntaxError m) =>
          Except.error (Exc.sqlSyntaxError (Exc.pySyntaxError m) query)
      | Except.error (PyExc.otherError m) =>
          Except.error (Exc.queryExecutionError (Exc.pyError m) (some query))
      | Except.ok rows =>
          match mapRowsWith (Blueprint.ofObj (DtoClass.init dao.model [])) rows with
          | Except.error e => Except.error (Exc.queryExecutionError e (some query))
          | Except.ok results => Except.ok results

/-- The selected columns of Dao.find_all: the keys of dto.columns() that
exist in the live schema, in DTO attribute order. -/
def findAllSelectCols (dto : Dto) (validCols : List String) : List String :=
  (keysOf (dtoColumns dto Option.none false)).filter (fun k => validCols.contains k)

/-- One equality predicate of the WHERE clause, following the isinstance
chain of the source (numeric and boolean unquoted, uuid quoted, everything
else quoted and escaped).  dto.columns(assigned_only=True) has already
stringified UUID values, so the uuid branch is kept for faithfulness but
never reached from find_all. -/
def filterLit (k : String) (v : PyVal) : String :=
  match v with
  | PyVal.bool b => k ++ " = " ++ pyStr (PyVal.bool b)
  | PyVal.int n => k ++ " = " ++ pyStr (PyVal.int n)
  | PyVal.uuid s => k ++ " = " ++ sqs ++ s ++ sqs
  | w => k ++ " = " ++ sqs ++ sql_escape (pyStr w) ++ sqs

/-- The WHERE predicates of Dao.find_all: assigned columns that exist in
the schema and are not None. -/
def findAllFilters (dto : Dto) (validCols : List String) : List String :=
  (dtoColumns dto Option.none true).filterMap (fun kv =>
    if validCols.contains kv.1 && !(decide (kv.2 = PyVal.none)) then
      some (filterLit kv.1 kv.2)
    else Option.none)

/-- The SELECT statement built by Dao.find_all. -/
def findAllQuery (dto : Dto) (validCols : List String) : String :=
  let filters := findAllFilters dto validCols
  let whereClause :=
    if filters.isEmpty then "" else " WHERE " ++ String.intercalate " AND " filters
  "SELECT " ++ String.intercalate ", " (findAllSelectCols dto validCols) ++
    " FROM " ++ dto.cls.table ++ whereClause

/-- Dao.find_all: default the filter to a fresh model instance, reject the
abstract base class, connect, run the filtered SELECT, and map rows outside
the try/except (so DtoMappingError propagates as itself).  The blueprint
here is dto.model(), the dotted class path. -/
def Dao.find_all (dao : Dao) (db : Db) (dtoOpt : Option Dto) : Except Exc (List Dto) :=
  let dto := match dtoOpt with
    | Option.none => DtoClass.init dao.model []
    | some d => d
  if dto.cls.isBase then
    Except.error (Exc.dtoExpectedError ("Expected a subclass instance of Dto, got " ++ dto.cls.name))
  else
    match db.connect with
    | Except.error m => Except.error (Exc.connectionError m)
    | Except.ok _ =>
        let validCols := db.columns dto.cls.table
        let query := findAllQuery dto validCols
        match db.execute query with
        | Except.error (PyExc.syntaxError m) =>
            Except.error (Exc.sqlSyntaxError (Exc.pySyntaxError m) query)
        | Except.error (PyExc.otherError m) =>
            Except.error (Exc.queryExecutionError (Exc.pyError m) (some query))
        | Except.ok rows => mapRowsWith (Blueprint.ofClass dto.cls) rows

/-- Dao.find_one: delegate to find_all; zero matches return None or raise
RegisterNotFoundError when requested; more than one match logs a warning
and returns None; exactly one match is returned.  DaoError exceptions from
the body re-raise unchanged; anything else is wrapped in
QueryExecutionError with no query text. -/
def Dao.find_one (dao : Dao) (db : Db) (dto : Dto) (raiseIfNotFound : Bool) :
    Except Exc (Option Dto) :=
  if dto.cls.isBase then
    Except.error (Exc.dtoExpectedError ("Expected a subclass instance of Dto, got " ++ dto.cls.name))
  else
    let body : Except Exc (Option Dto) :=
      match Dao.find_all dao db (some dto) with
      | Except.error e => Except.error e
      | Except.ok results =>
          match results with
          | [] =>
              if raiseIfNotFound then Except.error (Exc.registerNotFoundError dto)
              else Except.ok Option.none
          | [x] => Except.ok (some x)
          | _ :: _ :: _ => Except.ok Option.none
    match body with
    | Except.error e =>
        if isDaoError e then Except.error e
        else Except.error (Exc.queryExecutionError e Option.none)
    | Except.ok r => Except.ok r

/-- The SET assignments of Dao.update: one k = sql_value(v) entry for every
column of dto.columns(assigned_only=False) other than id. -/
def updateSetClauses (dto : Dto) : List String :=
  ((dtoColumns dto Option.none false).filter (fun kv => kv.1 ≠ "id")).map
    (fun kv => kv.1 ++ " = " ++ sql_value kv.2)

/-- The UPDATE statement built by Dao.update. -/
def updateQuery (dto : Dto) : String :=
  "UPDATE " ++ dto.cls.table ++ " SET " ++
    String.intercalate ", " (updateSetClauses dto) ++
    " WHERE id = " ++ sql_value (dtoId dto)

/-- Dao.update: reject the base class, require a non-None id (raising
DtoMissingAssignedFieldsError before the statement is built, connected or
executed), then run the UPDATE and return True. -/
def Dao.update (_dao : Dao) (db : Db) (dto : Dto) : Except Exc Bool :=
  if dto.cls.isBase then
    Except.error (Exc.dtoExpectedError ("Expected an instance of a subclass of Dto, got " ++ dto.cls.name))
  else if dtoId dto = PyVal.none then
    Except.error (Exc.dtoMissingAssignedFieldsError
      ("DTO must have " ++ sqs ++ "id" ++ sqs ++ " assigned for update operation."))
  else
    let query := updateQuery dto
    match db.connect with
    | Except.error m => Except.error (Exc.connectionError m)
    | Except.ok _ =>
        match db.execute query with
        | Except.error (PyExc.syntaxError m) =>
            Except.error (Exc.sqlSyntaxError (Exc.pySyntaxError m) query)
        | Except.error (PyExc.otherError m) =>
            Except.error (Exc.queryExecutionError (Exc.pyError m) (some query))
        | Except.ok _ => Except.ok true

/-! The validation engine: validation_base.ValidationObserver. -/

/-- One per-operation restriction rule: required fields, required-any group
and mutually exclusive groups. -/
structure Rule where
  required : List String
  requiredAny : List String
  mutuallyExclusive : List (List String)
deriving DecidableEq, Repr

/-- An entity (Domain) class of the modelled fragment: its name, the paired
DTO class blueprint, and the declared restrictions map.  The fragment
models entity classes without foreign-key or nested-collection declarations
(no foreign_keys attribute, empty nested-list metadata, clean_nested_keys
left at its False default), so the hydration passes of the source return
self unchanged on these classes. -/
structure DomainClass where
  name : String
  dtoClass : DtoClass
  restrictions : List (String × Rule)
deriving DecidableEq, Repr

/-- A Domain instance: class, attribute dictionary, and whether the
internal handle attribute __dao__ has been assigned.  The handle lives in
the instance dictionary in Python, but every consumer (Dto.vars, columns,
as_dto, str, sync targets) excludes it, so it is held apart from the data
fields here; daoH records that the handle was (re)assigned. -/
structure Domain where
  cls : DomainClass
  attrs : Attrs
  daoH : Bool
deriving DecidableEq, Repr

/-- getattr(domain, field, None) on a data field. -/
def getattrD (d : Domain) (f : String) : PyVal := (lookupV d.attrs f).getD PyVal.none

/-- Rule lookup in the class restrictions map. -/
def lookupRule : List (String × Rule) → String → Option Rule
  | [], _ => Option.none
  | (k, r) :: rest, op => if k = op then some r else lookupRule rest op

/-- The message appended for a violated required_any group. -/
def anyOfMsg (fields : List String) : String :=
  "[any of: " ++ String.intercalate ", " fields ++ "]"

/-- The message carried by a mutually exclusive violation. -/
def mutexMsg (group : List String) : String :=
  "[mutually exclusive violation: " ++ String.intercalate ", " group ++ "]"

/-- The non-None members of a group, as collected by the source. -/
def filledFields (d : Domain) (group : List String) : List String :=
  group.filter (fun f => !(decide (getattrD d f = PyVal.none)))

/-- The missing list collected by steps required and required_any of
ValidationObserver.validate, in collection order. -/
def collectMissing (d : Domain) (rule : Rule) : List String :=
  let req := rule.required.filter (fun f => decide (getattrD d f = PyVal.none))
  let anyPart :=
    if !rule.requiredAny.isEmpty &&
        !(rule.requiredAny.any (fun f => !(decide (getattrD d f = PyVal.none)))) then
      [anyOfMsg rule.requiredAny]
    else []
  req ++ anyPart

/-- ValidationObserver.validate: no rule for the operation is a no-op;
otherwise collect required / required_any violations, then raise at the
first mutually exclusive group with more than one non-None member, and
only afterwards raise the collected list if it is nonempty. -/
def ValidationObserver.validate (d : Domain) (op : String) : Except Exc Unit :=
  match lookupRule d.cls.restrictions op with
  | Option.none => Except.ok ()
  | some rule =>
      let missing := collectMissing d rule
      match rule.mutuallyExclusive.find? (fun g => 1 < (filledFields d g).length) with
      | some g => Except.error (Exc.validationError op [mutexMsg g])
      | Option.none =>
          if missing.isEmpty then Except.ok ()
          else Except.error (Exc.validationError op missing)

/-! The Entity layer: domain_base.Domain, restricted to classes without
foreign-key and nested-collection declarations. -/

/-- The copy loop of Domain.as_dto: walk the entity attributes in order and
assign those whose key is a declared field of the fresh DTO instance. -/
def copyMatching (fresh : Attrs) (src : Attrs) : Attrs :=
  src.foldl (fun acc kv =>
    if (keysOf fresh).contains kv.1 then setattrL acc kv.1 kv.2 else acc) fresh

/-- Domain.as_dto: resolve foreign-key objects (a no-op on the modelled
fragment, where no foreign_keys attribute exists and no attribute holds a
nested entity), create a fresh DTO instance from the dto blueprint, and
copy only the attributes the DTO declares. -/
def asDto (d : Domain) : Dto :=
  let fresh := DtoClass.init d.cls.dtoClass []
  ⟨d.cls.dtoClass, copyMatching fresh.attrs d.attrs⟩

/-- Domain.sync from a DTO: vars(obj) then sync_with_dict into self. -/
def domainSync (d : Domain) (o : Dto) : Domain :=
  ⟨d.cls, syncWithDict d.attrs o.attrs, d.daoH⟩

/-- Domain.normalize_foreign_keys (the second, effective definition in the
source): convert a string id that is a valid UUID, then convert every
string attribute whose name ends in _id and is a valid UUID.  The nested
recursion branch applies to Domain-valued attributes, which the modelled
fragment does not contain. -/
def normalizeFK (d : Domain) : Domain :=
  let attrs1 :=
    match lookupV d.attrs "id" with
    | some (PyVal.str s) =>
        if is_valid_uuid s then setattrL d.attrs "id" (PyVal.uuid (lowerStr s)) else d.attrs
    | _ => d.attrs
  let attrs2 := attrs1.map (fun kv =>
    match kv.2 with
    | PyVal.str s =>
        if kv.1.endsWith "_id" && is_valid_uuid s then (kv.1, PyVal.uuid (lowerStr s)) else kv
    | _ => kv)
  ⟨d.cls, attrs2, d.daoH⟩

/-- Domain.encapsulate_nested on the modelled fragment: with no
foreign_keys attribute on the class, the source returns self immediately
(guard at the top of the method); the nested-list pass and the
clean_nested_keys cleanup are likewise skipped. -/
def encapsulateNested (d : Domain) : Domain := d

/-- ReflectionUtils.new_instance(blueprint=self.dao): the Dao bound to the
DTO class of the entity. -/
def daoOf (cls : DomainClass) : Dao := ⟨cls.dtoClass⟩

/-- Record that self.__dao__ has been assigned. -/
def setDaoH (d : Domain) : Domain := ⟨d.cls, d.attrs, true⟩

/-- Domain.find (wrapped by @validate): validate, assign the dao handle,
call find_one with the as_dto filter; with no match return self unchanged,
otherwise sync, normalize identifiers and hydrate nested objects. -/
def Domain.find (db : Db) (d : Domain) : Except Exc Domain :=
  match ValidationObserver.validate d "find" with
  | Except.error e => Except.error e
  | Except.ok _ =>
      let d1 := setDaoH d
      match Dao.find_one (daoOf d1.cls) db (asDto d1) false with
      | Except.error e => Except.error e
      | Except.ok Option.none => Except.ok d1
      | Except.ok (some obj) =>
          Except.ok (encapsulateNested (normalizeFK (domainSync d1 obj)))

/-- Domain.update (wrapped by @validate): validate, assign the dao handle,
run the DAO update on the as_dto record, then reload through a fresh DTO
built from the id alone with raise_if_not_found=True, and sync, normalize
and hydrate from the reloaded record.  Every exception of the body is
caught and re-raised as UpdateOperationError carrying the attempted record
and (in the message in Python, as a value here) the original exception.
When the reload returns None (more than one row under one id), the source
calls self.sync(None), where vars(None) raises TypeError, likewise caught
and wrapped. -/
def Domain.update (db : Db) (d : Domain) : Except Exc Domain :=
  match ValidationObserver.validate d "update" with
  | Except.error e => Except.error e
  | Except.ok _ =>
      let d1 := setDaoH d
      let body : Except Exc Domain :=
        match Dao.update (daoOf d1.cls) db (asDto d1) with
        | Except.error e => Except.error e
        | Except.ok updated =>
            if !updated then Except.error (Exc.updateOperationFailed (some (asDto d1)))
            else
              let reloadDto := DtoClass.init d1.cls.dtoClass [("id", getattrD d1 "id")]
              match Dao.find_one (daoOf d1.cls) db reloadDto true with
              | Except.error e => Except.error e
              | Except.ok Option.none =>
                  Except.error (Exc.pyError "TypeError: vars() argument must have a dict attribute")
              | Except.ok (some obj) =>
                  Except.ok (encapsulateNested (normalizeFK (domainSync d1 obj)))
      match body with
      | Except.error e => Except.error (Exc.updateOperationError (some (asDto d1)) e)
      | Except.ok r => Except.ok r

/-! Specification-side definitions, stated independently of the
implementation, used to phrase the claims. -/

/-- Doubling of single quotes, written as a direct recursion (compared in
the claims against the implementation of sql_escape). -/
def quoteDoubledChars : List Char → List Char
  | [] => []
  | c :: cs =>
      if c = sq then sq :: sq :: quoteDoubledChars cs else c :: quoteDoubledChars cs

/-- The keys of an entity that carry a non-null value (the assigned subset
of the claims). -/
def assignedKeys (d : Domain) : List String :=
  (d.attrs.filter (fun kv => !(decide (kv.2 = PyVal.none)))).map Prod.fst

/-- Whether a result raised RegisterNotFoundError at top level. -/
def raisedRegisterNotFound (r : Except Exc Domain) : Bool :=
  match r with
  | Except.error (Exc.registerNotFoundError _) => true
  | _ => false

/-! Concrete instances used to evaluate the theorems: a company table with
columns id, name, active, and small driver states. -/

def cCompany : DtoClass := ⟨"CompanyDto", "company", ["id", "name", "active"], false⟩

/-- A DTO class declaring fewer fields than the live schema. -/
def cPartial : DtoClass := ⟨"PartialDto", "company", ["id", "name"], false⟩

def clsCompany : DomainClass := ⟨"Company", cCompany, []⟩

def schemaCompany : List String := ["id", "name", "active"]

/-- Driver with an empty table. -/
def dbEmpty : Db := ⟨Except.ok (), fun _ => schemaCompany, fun _ => Except.ok []⟩

def rowAcme : Row := [("id", PyVal.int 1), ("name", PyVal.str "Acme")]

def rowBeta : Row := [("id", PyVal.int 2), ("name", PyVal.str "Beta")]

/-- Driver returning one row for every statement. -/
def dbOneRow : Db := ⟨Except.ok (), fun _ => schemaCompany, fun _ => Except.ok [rowAcme]⟩

/-- Driver returning two rows for every statement. -/
def dbTwoRows : Db :=
  ⟨Except.ok (), fun _ => schemaCompany, fun _ => Except.ok [rowAcme, rowBeta]⟩

/-- An entity with id and name assigned. -/
def entX : Domain := ⟨clsCompany, [("id", PyVal.int 7), ("name", PyVal.str "X")], false⟩

/-- An entity with an explicit False field and a name, listed in an order
differing from the declared field order. -/
def entW : Domain := ⟨clsCompany, [("active", PyVal.bool false), ("name", PyVal.str "A")], false⟩

/-- The DTOs produced by mapping the two rows over the company class. -/
def dtoAcme : Dto :=
  ⟨cCompany, [("id", PyVal.int 1), ("name", PyVal.str "Acme"), ("active", PyVal.none)]⟩

def dtoBeta : Dto :=
  ⟨cCompany, [("id", PyVal.int 2), ("name", PyVal.str "Beta"), ("active", PyVal.none)]⟩

/-- as_dto of entX: every declared field, unassigned ones None. -/
def dtoX7 : Dto :=
  ⟨cCompany, [("id", PyVal.int 7), ("name", PyVal.str "X"), ("active", PyVal.none)]⟩

/-- The reload filter Domain.update builds for entX: id alone. -/
def reloadX7 : Dto :=
  ⟨cCompany, [("id", PyVal.int 7), ("name", PyVal.none), ("active", PyVal.none)]⟩

/-- A company DTO whose id is null. -/
def reloadNone : Dto :=
  ⟨cCompany, [("id", PyVal.none), ("name", PyVal.str "X"), ("active", PyVal.none)]⟩

/-- A save rule with required fields and a mutually exclusive pair. -/
def ruleSave : Rule := ⟨["name", "company_id"], [], [["work_group", "department"]]⟩

def clsVal : DomainClass := ⟨"Member", cCompany, [("save", ruleSave)]⟩

/-- An entity violating both a required constraint (name is unset) and the
mutually exclusive pair (both members non-null). -/
def entVal : Domain :=
  ⟨clsVal, [("work_group", PyVal.int 1), ("department", PyVal.int 2)], false⟩

/-! Dictionary lemmas. -/

theorem lookupV_eq_none {l : Attrs} {k : String} :
    lookupV l k = Option.none ↔ k ∉ keysOf l := by
  induction l with
  | nil => simp [lookupV, keysOf]
  | cons kv rest ih =>
      obtain ⟨k2, v⟩ := kv
      by_cases h : k2 = k
      · subst h; simp [lookupV, keysOf]
      · simp [lookupV, keysOf, h, ih, Ne.symm h]

theorem mem_of_lookupV {l : Attrs} {k : String} {v : PyVal}
    (h : lookupV l k = some v) : (k, v) ∈ l := by
  induction l with
  | nil => simp [lookupV] at h
  | cons kv rest ih =>
      obtain ⟨k2, v2⟩ := kv
      by_cases hk : k2 = k
      · subst hk
        simp [lookupV] at h
        simp [h]
      · simp [lookupV, hk] at h
        simp [ih h]

theorem lookupV_of_mem {l : Attrs} {k : String} {v : PyVal}
    (h : (k, v) ∈ l) (hnd : (keysOf l).Nodup) : lookupV l k = some v := by
  induction l with
  | nil => simp at h
  | cons kv rest ih =>
      obtain ⟨k2, v2⟩ := kv
      have hnd1 : k2 ∉ keysOf rest := (List.nodup_cons.mp hnd).1
      have hnd2 : (keysOf rest).Nodup := (List.nodup_cons.mp hnd).2
      rcases List.mem_cons.mp h with h1 | h1
      · cases h1
        simp [lookupV]
      · have hk : k2 ≠ k := by
          intro hc
          subst hc
          exact hnd1 (List.mem_map.mpr ⟨(k2, v), h1, rfl⟩)
        simp [lookupV, hk, ih h1 hnd2]

theorem lookupV_perm {l1 l2 : Attrs} (hp : l1.Perm l2)
    (hnd : (keysOf l1).Nodup) (k : String) : lookupV l1 k = lookupV l2 k := by
  have hnd2 : (keysOf l2).Nodup := ((hp.map Prod.fst).nodup_iff).mp hnd
  cases h : lookupV l1 k with
  | none =>
      have := lookupV_eq_none.mp h
      have : k ∉ keysOf l2 := fun hm => this (((hp.map Prod.fst).mem_iff).mpr hm)
      exact (lookupV_eq_none.mpr this).symm
  | some v =>
      exact (lookupV_of_mem (hp.mem_iff.mp (mem_of_lookupV h)) hnd2).symm

theorem lookupV_setattrL_self (l : Attrs) (k : String) (v : PyVal) :
    lookupV (setattrL l k v) k = some v := by
  induction l with
  | nil => simp [setattrL, lookupV]
  | cons kv rest ih =>
      obtain ⟨k2, v2⟩ := kv
      by_cases h : k2 = k
      · subst h; simp [setattrL, lookupV]
      · simp [setattrL, lookupV, h, ih]

theorem setattrL_lookupV_same {l : Attrs} {k : String} {v : PyVal}
    (h : lookupV l k = some v) : setattrL l k v = l := by
  induction l with
  | nil => simp [lookupV] at h
  | cons kv rest ih =>
      obtain ⟨k2, v2⟩ := kv
      by_cases hk : k2 = k
      · subst hk
        simp [lookupV] at h
        simp [setattrL, h]
      · simp [lookupV, hk] at h
        simp [setattrL, hk, ih h]

theorem lookupV_append_right {l1 l2 : Attrs} {k : String}
    (h : lookupV l1 k = Option.none) : lookupV (l1 ++ l2) k = lookupV l2 k := by
  induction l1 with
  | nil => simp
  | cons kv rest ih =>
      obtain ⟨k2, v2⟩ := kv
      by_cases hk : k2 = k
      · subst hk; simp [lookupV] at h
      · simp [lookupV, hk] at h ⊢
        exact ih h

theorem keysOf_map_pair (fields : List String) (g : String → PyVal) :
    keysOf (fields.map (fun f => (f, g f))) = fields := by
  induction fields with
  | nil => rfl
  | cons f rest ih => simpa [keysOf] using ih

theorem lookupV_map_pair {fields : List String} {k : String}
    (g : String → PyVal) (hk : k ∈ fields) :
    lookupV (fields.map (fun f => (f, g f))) k = some (g k) := by
  induction fields with
  | nil => simp at hk
  | cons f rest ih =>
      by_cases h : f = k
      · subst h; simp [lookupV]
      · rcases List.mem_cons.mp hk with h1 | h1
        · exact absurd h1.symm h
        · simp [lookupV, h, ih h1]

theorem setattrL_map_pair {fields : List String} {k : String}
    (g : String → PyVal) (w : PyVal) (hk : k ∈ fields) (hnd : fields.Nodup) :
    setattrL (fields.map (fun f => (f, g f))) k w
      = fields.map (fun f => (f, if f = k then w else g f)) := by
  induction fields with
  | nil => simp at hk
  | cons f rest ih =>
      by_cases h : f = k
      · subst h
        have htail : List.map (fun f2 => (f2, g f2)) rest
            = List.map (fun f2 => (f2, if f2 = f then w else g f2)) rest := by
          refine List.map_congr_left (fun a ha => ?_)
          have hne : a ≠ f := by
            intro hc
            subst hc
            exact (List.nodup_cons.mp hnd).1 ha
          simp [hne]
        simp [setattrL, htail]
      · have h1 : k ∈ rest := by
          rcases List.mem_cons.mp hk with hc | hc
          · exact absurd hc.symm h
          · exact hc
        simp [setattrL, h, ih h1 (List.nodup_cons.mp hnd).2]

/-! Facts about the DTO constructor and columns. -/

theorem assignedB_eq (v : PyVal) : assignedB v = !(decide (v = PyVal.none)) := by
  cases v <;> simp [assignedB, pyEqZero]

theorem idCoerce_ne_none {v : PyVal} (h : v ≠ PyVal.none) : idCoerce v ≠ PyVal.none := by
  cases v with
  | str s =>
      simp only [idCoerce]
      cases pyUuidParse s <;> simp
  | none => exact absurd rfl h
  | _ => simp [idCoerce]

/-- A fresh instance of a declared DTO class carries every declared field
with value None (the id slot is coerced in place and stays None). -/
theorem init_empty_attrs (c : DtoClass) (hid : "id" ∈ c.fields) :
    (DtoClass.init c []).attrs = c.fields.map (fun f => (f, PyVal.none)) := by
  have hl : lookupV (c.fields.map (fun f => (f, PyVal.none))) "id" = some PyVal.none :=
    lookupV_map_pair _ hid
  have hmap : c.fields.map (fun f => (f, (lookupV ([] : Attrs) f).getD PyVal.none))
      = c.fields.map (fun f => (f, PyVal.none)) := by
    simp [lookupV]
  simp only [DtoClass.init, dtoNew, hmap, hl]
  simp [idCoerce, setattrL_lookupV_same hl]

/-- A DTO built from the id keyword alone carries the (coerced) id and
None in every other declared field. -/
theorem init_id_attrs (c : DtoClass) (v : PyVal) (hid : "id" ∈ c.fields)
    (hnd : c.fields.Nodup) :
    (DtoClass.init c [("id", v)]).attrs
      = c.fields.map (fun f => (f, if f = "id" then idCoerce v else PyVal.none)) := by
  have hkw : c.fields.map (fun f => (f, (lookupV [("id", v)] f).getD PyVal.none))
      = c.fields.map (fun f => (f, if f = "id" then v else PyVal.none)) := by
    refine List.map_congr_left (fun a _ => ?_)
    by_cases h : a = "id"
    · subst h; simp [lookupV]
    · have h2 : "id" ≠ a := fun hc => h hc.symm
      simp [lookupV, h, h2]
  have hl : lookupV (c.fields.map (fun f => (f, if f = "id" then v else PyVal.none))) "id"
      = some v := by
    simpa using lookupV_map_pair (fun f => if f = "id" then v else PyVal.none) hid
  simp only [DtoClass.init, dtoNew, hkw, hl, Option.getD_some, Option.isSome_some, if_true]
  rw [setattrL_map_pair _ _ hid hnd]
  refine List.map_congr_left (fun a _ => ?_)
  by_cases h : a = "id" <;> simp [h]

/-- filterMap of a keyed producer over a list containing one designated
key: only that key survives. -/
theorem filterMap_single {α : Type} (fields : List String) (k : String)
    (F : String → Option α) (out : α)
    (hid : k ∈ fields) (hnd : fields.Nodup)
    (hFk : F k = some out) (hFne : ∀ f, f ≠ k → F f = Option.none) :
    fields.filterMap F = [out] := by
  induction fields with
  | nil => simp at hid
  | cons f rest ih =>
      by_cases h : f = k
      · subst h
        have hrest : rest.filterMap F = [] := by
          rw [List.filterMap_eq_nil_iff]
          intro a ha
          exact hFne a (fun hc => (List.nodup_cons.mp hnd).1 (hc ▸ ha))
        simp [List.filterMap_cons, hFk, hrest]
      · have h1 : k ∈ rest := by
          rcases List.mem_cons.mp hid with hc | hc
          · exact absurd hc.symm h
          · exact hc
        simp [List.filterMap_cons, hFne f h, ih h1 (List.nodup_cons.mp hnd).2]

/-- The assigned columns of a DTO built from the id keyword alone: exactly
the id column (when the id is not None). -/
theorem dtoColumns_init_id (c : DtoClass) (v : PyVal) (hid : "id" ∈ c.fields)
    (hnd : c.fields.Nodup) (hv : v ≠ PyVal.none) :
    dtoColumns (DtoClass.init c [("id", v)]) Option.none true
      = [("id", colVal (idCoerce v))] := by
  rw [dtoColumns]
  simp only [Option.getD_none]
  rw [init_id_attrs c v hid hnd, List.filterMap_map]
  refine filterMap_single c.fields "id" _ ("id", colVal (idCoerce v)) hid hnd ?_ ?_
  · have hni : defaultIgnore.contains "id" = false := by decide
    have hass : assignedB (idCoerce v) = true := by
      rw [assignedB_eq]
      simp [idCoerce_ne_none hv]
    simp [Function.comp, defaultIgnore, hass]
  · intro f hf
    cases h : defaultIgnore.contains f <;>
      simp [Function.comp, hf, h, assignedB_eq]

theorem contains_iff {l : List String} {a : String} : l.contains a = true ↔ a ∈ l := by
  simp [List.contains, List.elem_iff]

/-- The as_dto copy loop over a fresh field map: position f of the result
holds the entity value when assigned, the fresh default otherwise. -/
theorem copyMatching_map_pair (fields : List String) (hnd : fields.Nodup) :
    ∀ (src : Attrs) (g : String → PyVal), (keysOf src).Nodup →
      copyMatching (fields.map (fun f => (f, g f))) src
        = fields.map (fun f => (f, (lookupV src f).getD (g f))) := by
  intro src
  induction src with
  | nil =>
      intro g _
      simp [copyMatching, lookupV]
  | cons kv rest ih =>
      intro g hsrc
      obtain ⟨k, v⟩ := kv
      have hks : k ∉ keysOf rest := (List.nodup_cons.mp hsrc).1
      have hrest : (keysOf rest).Nodup := (List.nodup_cons.mp hsrc).2
      by_cases hkf : k ∈ fields
      · have hstep : copyMatching (fields.map (fun f => (f, g f))) ((k, v) :: rest)
            = copyMatching (fields.map (fun f => (f, if f = k then v else g f))) rest := by
          simp only [copyMatching, List.foldl_cons, keysOf_map_pair]
          rw [if_pos (contains_iff.mpr hkf)]
          rw [setattrL_map_pair _ _ hkf hnd]
        rw [hstep, ih _ hrest]
        refine List.map_congr_left (fun a _ => ?_)
        by_cases hak : a = k
        · subst hak
          rw [lookupV_eq_none.mpr hks]
          simp [lookupV]
        · have h2 : k ≠ a := fun hc => hak hc.symm
          simp [lookupV, h2, hak]
      · have hstep : copyMatching (fields.map (fun f => (f, g f))) ((k, v) :: rest)
            = copyMatching (fields.map (fun f => (f, g f))) rest := by
          simp only [copyMatching, List.foldl_cons, keysOf_map_pair]
          rw [if_neg (fun hc => hkf (contains_iff.mp hc))]
        rw [hstep, ih _ hrest]
        refine List.map_congr_left (fun a ha => ?_)
        have h2 : k ≠ a := fun hc => hkf (hc ▸ ha)
        simp [lookupV, h2]

theorem sql_escape_eq_doubled (s : String) :
    sql_escape s = String.mk (quoteDoubledChars s.data) := by
  rw [sql_escape]
  congr 1
  induction s.data with
  | nil => rfl
  | cons c cs ih =>
      by_cases h : c = sq <;> simp [quoteDoubledChars, h, ih]

/-! Facts about as_dto and the dao handle. -/

theorem setDaoH_cls (d : Domain) : (setDaoH d).cls = d.cls := rfl

theorem setDaoH_attrs (d : Domain) : (setDaoH d).attrs = d.attrs := rfl

theorem getattrD_setDaoH (d : Domain) (f : String) :
    getattrD (setDaoH d) f = getattrD d f := rfl

theorem asDto_attrs (d : Domain) (hid : "id" ∈ d.cls.dtoClass.fields)
    (hfnd : d.cls.dtoClass.fields.Nodup) (hnd : (keysOf d.attrs).Nodup) :
    (asDto d).attrs = d.cls.dtoClass.fields.map
      (fun f => (f, (lookupV d.attrs f).getD PyVal.none)) := by
  show copyMatching (DtoClass.init d.cls.dtoClass []).attrs d.attrs = _
  rw [init_empty_attrs _ hid]
  exact copyMatching_map_pair _ hfnd d.attrs _ hnd

theorem dtoColumns_asDto_eq (d : Domain) (hid : "id" ∈ d.cls.dtoClass.fields)
    (hfnd : d.cls.dtoClass.fields.Nodup) (hnd : (keysOf d.attrs).Nodup) :
    dtoColumns (asDto d) Option.none true
      = d.cls.dtoClass.fields.filterMap (fun f =>
          if defaultIgnore.contains f then Option.none
          else if assignedB ((lookupV d.attrs f).getD PyVal.none) then
            some (f, colVal ((lookupV d.attrs f).getD PyVal.none))
          else Option.none) := by
  rw [dtoColumns]
  simp only [Option.getD_none]
  rw [asDto_attrs d hid hfnd hnd, List.filterMap_map]
  rfl

theorem mem_assignedKeys {d : Domain} {k : String} :
    k ∈ assignedKeys d ↔ ∃ v, (k, v) ∈ d.attrs ∧ v ≠ PyVal.none := by
  constructor
  · intro hk
    obtain ⟨kv, hkv, hfst⟩ := List.mem_map.mp hk
    obtain ⟨hmem, hcond⟩ := List.mem_filter.mp hkv
    refine ⟨kv.2, ?_, ?_⟩
    · rw [← hfst]
      simpa using hmem
    · simpa using hcond
  · rintro ⟨v, hmem, hne⟩
    exact List.mem_map.mpr ⟨(k, v), List.mem_filter.mpr ⟨hmem, by simpa using hne⟩, rfl⟩

theorem mem_keys_dtoColumns_asDto (d : Domain)
    (hnd : (keysOf d.attrs).Nodup) (hfnd : d.cls.dtoClass.fields.Nodup)
    (hid : "id" ∈ d.cls.dtoClass.fields)
    (hsub : ∀ k, k ∈ assignedKeys d → k ∈ d.cls.dtoClass.fields) (k : String) :
    k ∈ keysOf (dtoColumns (asDto d) Option.none true)
      ↔ (k ∈ assignedKeys d ∧ k ∉ defaultIgnore) := by
  rw [dtoColumns_asDto_eq d hid hfnd hnd]
  constructor
  · intro hk
    obtain ⟨p, hp, hpk⟩ := List.mem_map.mp hk
    obtain ⟨f, hf, hFf⟩ := List.mem_filterMap.mp hp
    by_cases hig : defaultIgnore.contains f
    · rw [if_pos hig] at hFf; cases hFf
    · rw [if_neg hig] at hFf
      by_cases has : assignedB ((lookupV d.attrs f).getD PyVal.none) = true
      · rw [if_pos has] at hFf
        cases hFf
        have hfk : f = k := hpk
        subst hfk
        have hw : (lookupV d.attrs f).getD PyVal.none ≠ PyVal.none := by
          rw [assignedB_eq] at has
          simpa using has
        constructor
        · cases hlv : lookupV d.attrs f with
          | none => rw [hlv] at hw; simp at hw
          | some v =>
              refine mem_assignedKeys.mpr ⟨v, mem_of_lookupV hlv, ?_⟩
              rw [hlv] at hw
              simpa using hw
        · exact fun hc => hig (contains_iff.mpr hc)
      · rw [if_neg has] at hFf; cases hFf
  · rintro ⟨hka, hkni⟩
    obtain ⟨v, hmem, hvne⟩ := mem_assignedKeys.mp hka
    have hlv : lookupV d.attrs k = some v := lookupV_of_mem hmem hnd
    have hcont : defaultIgnore.contains k = false := by
      cases hc : defaultIgnore.contains k
      · rfl
      · exact absurd (contains_iff.mp hc) hkni
    have hass : assignedB ((lookupV d.attrs k).getD PyVal.none) = true := by
      rw [hlv, assignedB_eq]
      simpa using hvne
    refine List.mem_map.mpr ⟨(k, colVal v), List.mem_filterMap.mpr ⟨k, hsub k hka, ?_⟩, rfl⟩
    have hassv : assignedB v = true := by
      rw [assignedB_eq]
      simpa using hvne
    simp [hcont, hlv, hkni, hassv]

/-! The claims. -/

/-- C7: sql_value renders None as the unquoted SQL null keyword, booleans
and numbers as their unquoted textual form, text wrapped in single quotes
with every internal single quote doubled, and unique identifiers and
date/time values as quoted text. -/
theorem C7_sql_value_rendering :
    sql_value PyVal.none = "null"
    ∧ (∀ b : Bool, sql_value (PyVal.bool b) = pyStr (PyVal.bool b))
    ∧ (∀ n : Int, sql_value (PyVal.int n) = pyStr (PyVal.int n))
    ∧ (∀ s : String,
        sql_value (PyVal.str s) = sqs ++ String.mk (quoteDoubledChars s.data) ++ sqs)
    ∧ (∀ u : String, sql_value (PyVal.uuid u) = sqs ++ pyStr (PyVal.uuid u) ++ sqs)
    ∧ (∀ t : String, sql_value (PyVal.dt t) = sqs ++ pyStr (PyVal.dt t) ++ sqs) := by
  refine ⟨rfl, fun b => rfl, fun n => rfl, fun s => ?_, fun u => rfl, fun t => rfl⟩
  rw [sql_value, sql_escape_eq_doubled]

/-- C9: every Dto built through the base initializer has an id attribute
(None when the argument was absent); a string id that parses as a UUID is
stored as a typed UUID; any other id value, a non-UUID string included, is
stored unchanged. -/
theorem C9_dto_init_id (kwargs : Attrs) :
    (lookupV (dtoNew kwargs) "id").isSome = true
    ∧ (lookupV kwargs "id" = Option.none →
        lookupV (dtoNew kwargs) "id" = some PyVal.none)
    ∧ (∀ s u, lookupV kwargs "id" = some (PyVal.str s) → pyUuidParse s = some u →
        lookupV (dtoNew kwargs) "id" = some (PyVal.uuid u))
    ∧ (∀ v, lookupV kwargs "id" = some v →
        (∀ s, v = PyVal.str s → pyUuidParse s = Option.none) →
        lookupV (dtoNew kwargs) "id" = some v) := by
  cases h : lookupV kwargs "id" with
  | none =>
      have hd : dtoNew kwargs = kwargs ++ [("id", PyVal.none)] := by
        simp [dtoNew, h, idCoerce]
      refine ⟨?_, fun _ => ?_, fun s u hs hp => ?_, fun v hv hnp => ?_⟩
      · rw [hd, lookupV_append_right h]; rfl
      · rw [hd, lookupV_append_right h]; rfl
      · cases hs
      · cases hv
  | some v0 =>
      have hd : dtoNew kwargs = setattrL kwargs "id" (idCoerce v0) := by
        simp [dtoNew, h]
      refine ⟨?_, fun hn => ?_, fun s u hs hp => ?_, fun v hv hnp => ?_⟩
      · rw [hd, lookupV_setattrL_self]; rfl
      · cases hn
      · injection hs with hs2
        subst hs2
        rw [hd, lookupV_setattrL_self]
        simp [idCoerce, hp]
      · injection hv with hv2
        rw [hd, lookupV_setattrL_self, ← hv2]
        rw [← hv2] at hnp
        cases v0 with
        | str s => simp [idCoerce, hnp s rfl]
        | none => rfl
        | bool b => rfl
        | int n => rfl
        | uuid s => rfl
        | dt s => rfl

/-- Witness for C9 at concrete inputs: an absent id becomes None, a UUID
string becomes a typed UUID, a non-UUID string stays a string. -/
theorem C9_dto_init_id_witness :
    lookupV (dtoNew [("name", PyVal.str "A")]) "id" = some PyVal.none
    ∧ lookupV (dtoNew [("id", PyVal.str "5e10be4f-3e48-450a-baad-94e77a4296b4")]) "id"
        = some (PyVal.uuid "5e10be4f-3e48-450a-baad-94e77a4296b4")
    ∧ lookupV (dtoNew [("id", PyVal.str "not-a-uuid")]) "id"
        = some (PyVal.str "not-a-uuid") :=
  ⟨(C9_dto_init_id [("name", PyVal.str "A")]).2.1 rfl,
   (C9_dto_init_id [("id", PyVal.str "5e10be4f-3e48-450a-baad-94e77a4296b4")]).2.2.1
      "5e10be4f-3e48-450a-baad-94e77a4296b4" "5e10be4f-3e48-450a-baad-94e77a4296b4"
      rfl (by decide),
   (C9_dto_init_id [("id", PyVal.str "not-a-uuid")]).2.2.2
      (PyVal.str "not-a-uuid") rfl
      (fun s hs => by cases hs; decide)⟩

/-- C1: for a DTO with a non-null id, the SET clause of the UPDATE built by
Dao.update carries one column = literal assignment for every non-id column
of columns(assigned_only=False), null-valued columns included; for a DTO
with a null id, Dao.update raises the missing-assigned-fields error with
the same result for every driver state, before any statement is executed. -/
theorem C1_dao_update_full_set (dao : Dao) (dto : Dto) (hbase : dto.cls.isBase = false) :
    (∀ k v, (k, v) ∈ dtoColumns dto Option.none false → k ≠ "id" →
        (k ++ " = " ++ sql_value v) ∈ updateSetClauses dto)
    ∧ (updateSetClauses dto).length
        = ((dtoColumns dto Option.none false).filter (fun kv => kv.1 ≠ "id")).length
    ∧ (∀ k, (k, PyVal.none) ∈ dtoColumns dto Option.none false → k ≠ "id" →
        (k ++ " = null") ∈ updateSetClauses dto)
    ∧ (dtoId dto = PyVal.none →
        ∀ db : Db, Dao.update dao db dto
          = Except.error (Exc.dtoMissingAssignedFieldsError
              ("DTO must have " ++ sqs ++ "id" ++ sqs ++ " assigned for update operation."))) := by
  have hmem : ∀ k v, (k, v) ∈ dtoColumns dto Option.none false → k ≠ "id" →
      (k ++ " = " ++ sql_value v) ∈ updateSetClauses dto := by
    intro k v hkv hk
    exact List.mem_map.mpr
      ⟨(k, v), List.mem_filter.mpr ⟨hkv, by simpa using hk⟩, rfl⟩
  refine ⟨hmem, ?_, fun k hk hki => ?_, fun hidn db => ?_⟩
  · rw [updateSetClauses, List.length_map]
  · have h2 := hmem k PyVal.none hk hki
    have heq : k ++ " = " ++ sql_value PyVal.none = k ++ " = null" := by
      rw [String.append_assoc]
      exact congrArg (fun t => k ++ t) (by decide)
    rwa [heq] at h2
  · simp [Dao.update, hbase, hidn]

/-- Witness for C1 at a concrete DTO: the never-assigned active column is
written as null, and the same DTO without an id fails for two different
driver states with the missing-assigned-fields error. -/
theorem C1_dao_update_full_set_witness :
    ("active" ++ " = null") ∈ updateSetClauses dtoX7
    ∧ Dao.update ⟨cCompany⟩ dbEmpty reloadNone
        = Except.error (Exc.dtoMissingAssignedFieldsError
            ("DTO must have " ++ sqs ++ "id" ++ sqs ++ " assigned for update operation."))
    ∧ Dao.update ⟨cCompany⟩ dbOneRow reloadNone
        = Except.error (Exc.dtoMissingAssignedFieldsError
            ("DTO must have " ++ sqs ++ "id" ++ sqs ++ " assigned for update operation.")) :=
  ⟨(C1_dao_update_full_set ⟨cCompany⟩ dtoX7 rfl).1 "active" PyVal.none (by decide) (by decide),
   (C1_dao_update_full_set ⟨cCompany⟩ reloadNone rfl).2.2.2 (by decide) dbEmpty,
   (C1_dao_update_full_set ⟨cCompany⟩ reloadNone rfl).2.2.2 (by decide) dbOneRow⟩

/-- C2: when the restrictions of an operation declare a required field that
is null together with a mutually exclusive group holding more than one
non-null member, validate raises the constraint violation naming a
doubly-filled mutually exclusive group; the collected required and
required-any violations are raised only when no group is doubly filled. -/
theorem C2_validate_mutex_precedence (d : Domain) (op : String) (rule : Rule)
    (f : String) (g : List String)
    (hrule : lookupRule d.cls.restrictions op = some rule)
    (_hreq : f ∈ rule.required) (_hnull : getattrD d f = PyVal.none)
    (hg : g ∈ rule.mutuallyExclusive) (hfill : 1 < (filledFields d g).length) :
    (∃ g2 ∈ rule.mutuallyExclusive, 1 < (filledFields d g2).length ∧
        ValidationObserver.validate d op
          = Except.error (Exc.validationError op [mutexMsg g2]))
    ∧ (∀ d2 op2 rule2, lookupRule d2.cls.restrictions op2 = some rule2 →
        (∀ g2 ∈ rule2.mutuallyExclusive, (filledFields d2 g2).length ≤ 1) →
        collectMissing d2 rule2 ≠ [] →
        ValidationObserver.validate d2 op2
          = Except.error (Exc.validationError op2 (collectMissing d2 rule2))) := by
  constructor
  · have hsome : (rule.mutuallyExclusive.find?
        (fun g2 => decide (1 < (filledFields d g2).length))).isSome := by
      rw [List.find?_isSome]
      exact ⟨g, hg, decide_eq_true hfill⟩
    obtain ⟨g2, hfind⟩ := Option.isSome_iff_exists.mp hsome
    have hpg2 :=
      @List.find?_some _ (fun g2 => decide (1 < (filledFields d g2).length))
        g2 rule.mutuallyExclusive hfind
    refine ⟨g2, List.mem_of_find?_eq_some hfind, of_decide_eq_true hpg2, ?_⟩
    simp only [ValidationObserver.validate, hrule, hfind]
  · intro d2 op2 rule2 hr2 hle hne
    have hfind : rule2.mutuallyExclusive.find?
        (fun g2 => decide (1 < (filledFields d2 g2).length)) = Option.none := by
      rw [List.find?_eq_none]
      intro x hx
      simp [Nat.not_lt.mpr (hle x hx)]
    simp only [ValidationObserver.validate, hr2, hfind]
    rw [if_neg (by simpa using hne)]

/-- Witness for C2 at a concrete entity violating both a required
constraint and the mutually exclusive pair: the raised violation names the
pair. -/
theorem C2_validate_mutex_precedence_witness :
    (∃ g2 ∈ ruleSave.mutuallyExclusive, 1 < (filledFields entVal g2).length ∧
        ValidationObserver.validate entVal "save"
          = Except.error (Exc.validationError "save" [mutexMsg g2]))
    ∧ ValidationObserver.validate entVal "save"
        = Except.error (Exc.validationError "save"
            ["[mutually exclusive violation: work_group, department]"]) :=
  ⟨(C2_validate_mutex_precedence entVal "save" ruleSave "name" ["work_group", "department"]
      rfl (by decide) rfl (by decide) (by decide)).1,
   rfl⟩

/-- C3: find_one on a successful find_all returns the sole match; on zero
matches it returns None or raises RegisterNotFoundError exactly when the
flag asks for it; on more than one match it returns None and never raises,
whatever the flag. -/
theorem C3_find_one_cases (dao : Dao) (db : Db) (dto : Dto) (flag : Bool)
    (results : List Dto) (hbase : dto.cls.isBase = false)
    (h : Dao.find_all dao db (some dto) = Except.ok results) :
    (Dao.find_one dao db dto flag =
      match results with
      | [] =>
          if flag then Except.error (Exc.registerNotFoundError dto)
          else Except.ok Option.none
      | [x] => Except.ok (some x)
      | _ :: _ :: _ => Except.ok Option.none)
    ∧ (1 < results.length →
        ∀ b : Bool, Dao.find_one dao db dto b = Except.ok Option.none) := by
  have key : ∀ b : Bool, Dao.find_one dao db dto b =
      match results with
      | [] =>
          if b then Except.error (Exc.registerNotFoundError dto)
          else Except.ok Option.none
      | [x] => Except.ok (some x)
      | _ :: _ :: _ => Except.ok Option.none := by
    intro b
    simp only [Dao.find_one, hbase, h]
    cases results with
    | nil => cases b <;> simp [isDaoError]
    | cons x rest => cases rest <;> simp
  refine ⟨key flag, fun hlen b => ?_⟩
  have hb := key b
  rcases results with _ | ⟨x, _ | ⟨y, rest⟩⟩
  · simp at hlen
  · simp at hlen
  · exact hb

/-- Witness for C3 at a driver returning two rows: find_one returns None
for both flag values instead of raising or picking one row. -/
theorem C3_find_one_cases_witness :
    Dao.find_one ⟨cCompany⟩ dbTwoRows (DtoClass.init cCompany []) true
      = Except.ok Option.none
    ∧ Dao.find_one ⟨cCompany⟩ dbTwoRows (DtoClass.init cCompany []) false
      = Except.ok Option.none :=
  ⟨(C3_find_one_cases ⟨cCompany⟩ dbTwoRows (DtoClass.init cCompany []) true
      [dtoAcme, dtoBeta] rfl rfl).2 (by decide) true,
   (C3_find_one_cases ⟨cCompany⟩ dbTwoRows (DtoClass.init cCompany []) false
      [dtoAcme, dtoBeta] rfl rfl).2 (by decide) false⟩

/-- C10: when the underlying find_one reports no match, Domain.find
returns the entity with its attribute dictionary unchanged: no field
synchronization, no identifier normalization and no nested hydration run
on the no-match path (only the internal dao handle is assigned). -/
theorem C10_find_no_match (db : Db) (d : Domain)
    (hval : ValidationObserver.validate d "find" = Except.ok ())
    (hnone : Dao.find_one (daoOf d.cls) db (asDto (setDaoH d)) false
      = Except.ok Option.none) :
    Domain.find db d = Except.ok (setDaoH d)
    ∧ (setDaoH d).attrs = d.attrs := by
  refine ⟨?_, rfl⟩
  simp only [Domain.find, hval, setDaoH_cls]
  rw [hnone]

/-- Witness for C10: a no-match find on a concrete entity returns it with
the attrs untouched. -/
theorem C10_find_no_match_witness :
    Domain.find dbEmpty entX = Except.ok (setDaoH entX)
    ∧ (setDaoH entX).attrs = entX.attrs :=
  C10_find_no_match dbEmpty entX rfl rfl

/-- C4 (counterexample): a concrete update whose reload finds nothing does
not fail with RegisterNotFoundError: the exception surfaced by
Domain.update is UpdateOperationError, wrapping the not-found error raised
inside the reload. -/
theorem C4_update_not_registerNotFound :
    raisedRegisterNotFound (Domain.update dbEmpty entX) = false
    ∧ Domain.update dbEmpty entX
        = Except.error (Exc.updateOperationError (some dtoX7)
            (Exc.registerNotFoundError reloadX7)) :=
  ⟨rfl, rfl⟩

/-- C4 (amended): Domain.update reloads through a DTO built from the id
keyword alone, whose assigned column set is exactly the id; when that
reload finds nothing, the RegisterNotFoundError raised by find_one inside
the body is caught by the broad handler of Domain.update and re-raised as
UpdateOperationError carrying it. -/
theorem C4_update_reload_by_id (db : Db) (d : Domain)
    (hval : ValidationObserver.validate d "update" = Except.ok ())
    (hid : "id" ∈ d.cls.dtoClass.fields) (hnd : d.cls.dtoClass.fields.Nodup)
    (hnn : getattrD d "id" ≠ PyVal.none)
    (hupd : Dao.update (daoOf d.cls) db (asDto (setDaoH d)) = Except.ok true)
    (hreload : Dao.find_one (daoOf d.cls) db
        (DtoClass.init d.cls.dtoClass [("id", getattrD d "id")]) true
      = Except.error (Exc.registerNotFoundError
          (DtoClass.init d.cls.dtoClass [("id", getattrD d "id")]))) :
    keysOf (dtoColumns (DtoClass.init d.cls.dtoClass [("id", getattrD d "id")])
        Option.none true) = ["id"]
    ∧ Domain.update db d
        = Except.error (Exc.updateOperationError (some (asDto (setDaoH d)))
            (Exc.registerNotFoundError
              (DtoClass.init d.cls.dtoClass [("id", getattrD d "id")]))) := by
  constructor
  · rw [dtoColumns_init_id _ _ hid hnd hnn]
    rfl
  · simp only [Domain.update, hval, setDaoH_cls, getattrD_setDaoH]
    rw [hupd]
    simp only [Bool.not_true, Bool.false_eq_true, if_false]
    rw [hreload]

/-- Witness for C4 at a concrete entity and an empty table. -/
theorem C4_update_reload_by_id_witness :
    keysOf (dtoColumns (DtoClass.init entX.cls.dtoClass [("id", getattrD entX "id")])
        Option.none true) = ["id"]
    ∧ Domain.update dbEmpty entX
        = Except.error (Exc.updateOperationError (some (asDto (setDaoH entX)))
            (Exc.registerNotFoundError
              (DtoClass.init entX.cls.dtoClass [("id", getattrD entX "id")]))) :=
  C4_update_reload_by_id dbEmpty entX rfl (by decide) (by decide) (by decide) rfl rfl

/-- C5: at a concrete one-row table, find_all without a filter returns the
mapped DTOs while list fails: the blueprint list passes to new_instance is
a DTO instance instead of a dotted class path, so every row fails to map
and the failure surfaces wrapped as QueryExecutionError; the two calls are
not equivalent.  On a DTO class declaring fewer fields than the schema the
two statements already select different columns. -/
theorem C5_list_find_all_not_equivalent :
    Dao.find_all ⟨cCompany⟩ dbOneRow Option.none = Except.ok [dtoAcme]
    ∧ Dao.list ⟨cCompany⟩ dbOneRow
        = Except.error (Exc.queryExecutionError
            (Exc.dtoMappingError
              "Failed to map row to DTO: AttributeError: CompanyDto object has no attribute split")
            (some "SELECT id, name, active FROM company"))
    ∧ Dao.list ⟨cCompany⟩ dbOneRow ≠ Dao.find_all ⟨cCompany⟩ dbOneRow Option.none
    ∧ listQuery cPartial schemaCompany ≠ findAllQuery (DtoClass.init cPartial []) schemaCompany := by
  refine ⟨rfl, rfl, ?_, ?_⟩
  · intro hc
    cases hc
  · decide

/-- C8: at a concrete execution where the connection succeeds, the query
executes, and the returned row cannot be mapped (the mapping step raises
DtoMappingError), Dao.list fails with QueryExecutionError wrapping the
mapping error instead of the mapping failure itself, because the mapping
loop sits inside the broad try/except of list. -/
theorem C8_list_mapping_failure_wrapped :
    dbOneRow.connect = Except.ok ()
    ∧ dbOneRow.execute (listQuery cCompany schemaCompany) = Except.ok [rowAcme]
    ∧ mapRowsWith (Blueprint.ofObj (DtoClass.init cCompany [])) [rowAcme]
        = Except.error (Exc.dtoMappingError
            "Failed to map row to DTO: AttributeError: CompanyDto object has no attribute split")
    ∧ Dao.list ⟨cCompany⟩ dbOneRow
        = Except.error (Exc.queryExecutionError
            (Exc.dtoMappingError
              "Failed to map row to DTO: AttributeError: CompanyDto object has no attribute split")
            (some (listQuery cCompany schemaCompany))) :=
  ⟨rfl, rfl, rfl, rfl⟩

/-- C6: for an entity whose assigned (non-null) attribute keys lie within
its declared DTO fields, as_dto().columns(assigned_only=True) carries
exactly the assigned keys minus the excluded meta fields, independently of
the order of the attribute dictionary; fields holding null are dropped,
while explicit False and 0 are kept as assigned. -/
theorem C6_as_dto_assigned_columns (d : Domain)
    (hnd : (keysOf d.attrs).Nodup)
    (hfnd : d.cls.dtoClass.fields.Nodup)
    (hid : "id" ∈ d.cls.dtoClass.fields)
    (hsub : ∀ k, k ∈ assignedKeys d → k ∈ d.cls.dtoClass.fields) :
    (∀ k, k ∈ keysOf (dtoColumns (asDto d) Option.none true)
        ↔ (k ∈ assignedKeys d ∧ k ∉ defaultIgnore))
    ∧ (∀ d2 : Domain, d2.cls = d.cls → d2.attrs.Perm d.attrs →
        (keysOf d2.attrs).Nodup →
        dtoColumns (asDto d2) Option.none true = dtoColumns (asDto d) Option.none true)
    ∧ (∀ k v, (k, v) ∈ d.attrs → (v = PyVal.bool false ∨ v = PyVal.int 0) →
        k ∉ defaultIgnore → k ∈ keysOf (dtoColumns (asDto d) Option.none true))
    ∧ (∀ k, (k, PyVal.none) ∈ d.attrs →
        k ∉ keysOf (dtoColumns (asDto d) Option.none true)) := by
  refine ⟨mem_keys_dtoColumns_asDto d hnd hfnd hid hsub, ?_, ?_, ?_⟩
  · intro d2 hcls hperm hnd2
    have hl : ∀ f, lookupV d2.attrs f = lookupV d.attrs f :=
      fun f => lookupV_perm hperm hnd2 f
    have hid2 : "id" ∈ d2.cls.dtoClass.fields := by rw [hcls]; exact hid
    have hfnd2 : d2.cls.dtoClass.fields.Nodup := by rw [hcls]; exact hfnd
    rw [dtoColumns_asDto_eq d2 hid2 hfnd2 hnd2, dtoColumns_asDto_eq d hid hfnd hnd, hcls]
    simp only [hl]
  · intro k v hmem hv hkni
    refine (mem_keys_dtoColumns_asDto d hnd hfnd hid hsub k).mpr ⟨?_, hkni⟩
    refine mem_assignedKeys.mpr ⟨v, hmem, ?_⟩
    rcases hv with rfl | rfl <;> simp
  · intro k hmem hk
    have h1 := (mem_keys_dtoColumns_asDto d hnd hfnd hid hsub k).mp hk
    obtain ⟨v, hv, hvne⟩ := mem_assignedKeys.mp h1.1
    have hnone := lookupV_of_mem hmem hnd
    have h2 := lookupV_of_mem hv hnd
    rw [hnone] at h2
    injection h2 with h3
    exact hvne h3.symm

/-- Witness for C6 at a concrete entity listing an explicit False field
before its name: the assigned columns are exactly those two keys (ordered
by the DTO declaration, not the entity dictionary). -/
theorem C6_as_dto_assigned_columns_witness :
    keysOf (dtoColumns (asDto entW) Option.none true) = ["name", "active"]
    ∧ ("active" ∈ keysOf (dtoColumns (asDto entW) Option.none true)
        ↔ ("active" ∈ assignedKeys entW ∧ "active" ∉ defaultIgnore)) :=
  ⟨rfl,
   (C6_as_dto_assigned_columns entW (by decide) (by decide) (by decide)
      (by
        intro k hk
        have he : assignedKeys entW = ["active", "name"] := rfl
        rw [he] at hk
        fin_cases hk <;> decide)).1 "active"⟩

end Miniorm
